import Mathlib

/-!
# Verification of the AskAI streaming session and QA deduplication store

This file is a shallow embedding, in Lean 4, of the core of the AskAI
terminal assistant (Go):

* the streaming-session producer `startStreamCmdWithCallback` and the
  full-response saver command built in `handleChatInput`
  (files `internal/llm` and `internal/ui` of the repository),
* the consumer polling primitive `NextTokenCmd`,
* the idempotent channel teardown `Model.safeCloseChannels`,
* the vector-store client (`VectorStore.QAExists`, `VectorStore.StoreQA`,
  `VectorStore.StoreVector`) and the archival operation `Model.StoreQA`,
* the test embedder `DummyEmbedder.Embed`.

Go channels are modelled by explicit traces (the ordered list of values
that complete a send on each channel), goroutine interleaving by the few
scheduling decisions that are actually observable (the `select` race in
`NextTokenCmd`, the point at which the stop channel is closed), and the
external Qdrant server by a functional store state whose search and
upsert follow the contract stated in the specification (§4.2): search
returns candidates filtered to `type = qa_pair`, ordered by descending
similarity, truncated to the requested limit; upsert of a vector whose
length differs from the collection's fixed dimensionality is rejected.
-/

namespace AskAI

/-! ## Streaming session producer

`startStreamCmdWithCallback` (package `llm`) runs the remote chat stream
and, for every callback invocation with a non-empty content chunk:
1. checks the stop channel (abort with a "stream canceled" error if closed),
2. appends the chunk to the `fullResponse` builder,
3. sends the chunk on the response channel (capacity 1), unless stopped,
4. sends the chunk on the token output channel, unless stopped.
After the loop it sends `fullResponse` on the response channel through a
fire-and-forget goroutine (skipped when the stop channel is closed), and
closes both the output and the response channel.

The saver command built in `handleChatInput` performs exactly one receive
on the response channel, so at most two sends on the response channel can
ever complete: the first is handed to the receiver, the second occupies
the capacity-1 buffer, and a third send blocks until the stop channel is
closed (or forever).  The trace below records, in order, the sends that
complete on each channel.

`stopAt = some k` means the stop channel is closed between producer event
`k - 1` and producer event `k`, where events `0 .. n-1` are the callback
invocations and event `n` is the post-loop full-response send; `none`
means the session is never cancelled.  `raceSendWins` resolves the race
between the asynchronous full-response send and the producer's closing of
the response channel (the two are unsynchronised in the source).
-/

/-- Session lifecycle states from the specification state machine. -/
inductive SessionState where
  | idle
  | streaming
  | completed
  | errored
  | canceled
deriving DecidableEq, Repr

/-- How the producer goroutine of one session ends. -/
inductive ProducerOutcome where
  | finished
  | canceled
  | stuck
deriving DecidableEq, Repr

/-- Whether the stop channel is observed closed at producer event `i`. -/
def stopObserved (stopAt : Option Nat) (i : Nat) : Bool :=
  match stopAt with
  | some k => decide (k ≤ i)
  | none => false

/-- One streaming run of the producer callback loop, translated from the
`completion.ChatStream` callback in `startStreamCmdWithCallback`.

Arguments: remaining chunks, current callback index `i`, number `r` of
response-channel sends already completed, stop point.  Returns the sends
completed on the token output channel, the sends completed on the
response channel, the content of the `fullResponse` builder and the final
response-send count together with the outcome.

A non-empty chunk is first written to the builder; its response-channel
send completes only while `r < 2` (the single receive of the saver plus
the capacity-1 buffer); the third such send blocks, so the producer
either hangs (`stuck`, no cancellation pending) or is eventually released
by the stop channel (`canceled`). -/
def runCallbacks : List String → Nat → Nat → Option Nat →
    List String × List String × String × Nat × ProducerOutcome
  | [], _, r, _ => ([], [], "", r, .finished)
  | c :: rest, i, r, stopAt =>
    if stopObserved stopAt i then
      ([], [], "", r, .canceled)
    else if c = "" then
      runCallbacks rest (i + 1) r stopAt
    else if r < 2 then
      let (outs, resps, agg, rF, oc) := runCallbacks rest (i + 1) (r + 1) stopAt
      (c :: outs, c :: resps, c ++ agg, rF, oc)
    else
      match stopAt with
      | some _ => ([], [], c, r, .canceled)
      | none => ([], [], c, r, .stuck)

/-- Observable trace of one streaming session. -/
structure SessionRun where
  outDelivered : List String
  respDelivered : List String
  aggregated : String
  outcome : ProducerOutcome
deriving DecidableEq, Repr

/-- Full producer run: the callback loop followed by the post-loop
full-response send.  The post-loop send is attempted only when the stop
channel is not yet closed (in the cancelled case the `select` skips it);
it completes only when the capacity-1 response buffer is free (`r ≤ 1`)
and the asynchronous send wins its race against the producer's `close` of
the response channel. -/
def producerRun (chunks : List String) (stopAt : Option Nat) (raceSendWins : Bool) : SessionRun :=
  let (outs, resps, agg, rF, oc) := runCallbacks chunks 0 0 stopAt
  match oc with
  | .finished =>
    let stopBeforeFullSend :=
      match stopAt with
      | some k => decide (k ≤ chunks.length)
      | none => false
    let fullSent := !stopBeforeFullSend && decide (rF ≤ 1) && raceSendWins
    ⟨outs, resps ++ (if fullSent then [agg] else []), agg, .finished⟩
  | .canceled => ⟨outs, resps, agg, .canceled⟩
  | .stuck => ⟨outs, resps, agg, .stuck⟩

/-- The saver command of `handleChatInput` performs a single receive on
the response channel and calls `Model.StoreQA question answer` when the
received string is non-empty.  The value it receives is the first send
that completed on the response channel, or the zero value `""` if the
channel was closed (or never delivers) before any send completed.
Returns `some answer` when archival is triggered with that text. -/
def archivedAnswer (run : SessionRun) : Option String :=
  match run.respDelivered.head? with
  | some s => if s = "" then none else some s
  | none => none

/-- Session state reached by the driver once the producer run ends,
following `handleStreamEnd` / the cancellation path of `handleKeyMsg`:
a finished producer closes the token channel, which the driver maps to
`StreamEndMsg` and the `completed` state; a cancelled session was put in
the `canceled` state by the user's interrupt; a stuck producer leaves the
session streaming forever. -/
def sessionFinalState (run : SessionRun) : SessionState :=
  match run.outcome with
  | .finished => .completed
  | .canceled => .canceled
  | .stuck => .streaming

/-! ## Channel teardown (`Model.safeCloseChannels`)

A Go channel field of the model is either `nil` (`none`), open, or
closed-but-not-nil.  `close` on a closed channel panics; the Go helper
checks only for `nil` before closing, and sets the field to `nil` after
closing, so a second invocation finds every field `nil` and does nothing.
A panic is modelled as the `Except.error` outcome. -/

/-- State of a non-nil Go channel. -/
inductive ChanState where
  | opened
  | closed
deriving DecidableEq, Repr

/-- The three channel fields of the `ui.Model` that `safeCloseChannels`
tears down (`StopCh`, `ErrCh`, `StreamCh`); `none` is a nil field. -/
structure Channels where
  stopCh : Option ChanState
  errCh : Option ChanState
  streamCh : Option ChanState
deriving DecidableEq, Repr

/-- A Go runtime panic (close of a closed channel). -/
inductive GoPanic where
  | closeOfClosedChannel
deriving DecidableEq, Repr

/-- The `safeClose` helper of `Model.safeCloseChannels`: skip a nil
field, otherwise close it (panicking if it is already closed) and set
the field to nil. -/
def safeCloseField : Option ChanState → Except GoPanic (Option ChanState)
  | none => .ok none
  | some .opened => .ok none
  | some .closed => .error .closeOfClosedChannel

/-- Translation of `Model.safeCloseChannels`: closes `StopCh`, `ErrCh` and `StreamCh`
in that order, each through the nil-checking helper. -/
def safeCloseChannels (c : Channels) : Except GoPanic Channels := do
  let s ← safeCloseField c.stopCh
  let e ← safeCloseField c.errCh
  let t ← safeCloseField c.streamCh
  pure ⟨s, e, t⟩

/-! ## Consumer polling primitive (`NextTokenCmd`)

`NextTokenCmd` performs one Go `select` over the error channel and the
token channel.  A channel is ready for receive when its buffer is
non-empty or it is closed; a receive yields the buffer head, or the type's
zero value (`nil` error / `""` with `ok = false`) when the channel is
closed and empty.  When both channels are ready the Go runtime picks one
case pseudo-randomly; that choice is the `pickErr` parameter. -/

/-- A Go channel as seen by a receiver: buffered values plus the closed
flag.  For the error channel the buffer holds the non-nil errors sent by
the producer (the producer never sends a nil error). -/
structure GoChan (α : Type) where
  buf : List α
  closed : Bool
deriving DecidableEq, Repr

/-- A receive case of the `select` is ready when a value is buffered or
the channel is closed. -/
def GoChan.recvReady {α : Type} (c : GoChan α) : Bool :=
  !c.buf.isEmpty || c.closed

/-- The value obtained by a ready receive: `some` buffered value, or
`none` for the zero value delivered by a closed empty channel. -/
def GoChan.recvVal {α : Type} (c : GoChan α) : Option α :=
  c.buf.head?

/-- Messages produced by `NextTokenCmd` (package `types`). -/
inductive StreamMsg where
  | tokenMsg (s : String)
  | streamEndMsg
  | streamErrMsg (e : String)
deriving DecidableEq, Repr

/-- Translation of `llm.NextTokenCmd`: one `select` over the error channel and the token
channel.  `none` means neither case is ready and the command blocks.
Errors are modelled as their message strings. -/
def nextTokenCmd (errCh : GoChan String) (tokCh : GoChan String) (pickErr : Bool) :
    Option StreamMsg :=
  if errCh.recvReady && (pickErr || !tokCh.recvReady) then
    some (match errCh.recvVal with
      | some e => .streamErrMsg e
      | none => .streamEndMsg)
  else if tokCh.recvReady then
    some (match tokCh.recvVal with
      | some s => .tokenMsg s
      | none => .streamEndMsg)
  else none

/-! ## Vector store client (package `vector`)

The Qdrant server is external to the repository; its state is modelled as
the list of stored records of one collection with a fixed dimensionality.
Search follows the contract of spec §4.2: candidates filtered by the
`Must type = qa_pair` condition of the Go search request, ordered by
descending similarity to the query vector, truncated to the limit.  The
concrete score (a dot product over `ℚ`) only fixes an ordering; no
theorem below depends on which order the candidates come back in. -/

/-- One `(id, vector, payload)` point of the Qdrant collection.  The Go
client uses string UUIDs; fresh ids are modelled by a counter. -/
structure VectorRecord where
  id : Nat
  vector : List ℚ
  payload : List (String × String)
deriving DecidableEq, Repr

/-- The single Qdrant collection: fixed dimensionality, fresh-id counter,
stored points. -/
structure QdrantState where
  dim : Nat
  nextId : Nat
  records : List VectorRecord
deriving DecidableEq, Repr

/-- The collection as created by `EnsureCollection(vectorSize)`. -/
def emptyStore (dim : Nat) : QdrantState :=
  ⟨dim, 0, []⟩

/-- The fixed vector size of the `askai_questions` collection
(`vectorSize = 1024` in the source, matching `mxbai-embed-large`). -/
def askaiVectorSize : Nat := 1024

/-- Similarity score used to order search candidates (see the section
comment: the choice of score is irrelevant to every theorem). -/
def dotScore (v w : List ℚ) : ℚ :=
  (List.zipWith (fun x y => x * y) v w).sum

/-- Insert a record into a list kept in descending score order. -/
def insertDesc (q : List ℚ) (r : VectorRecord) : List VectorRecord → List VectorRecord
  | [] => [r]
  | x :: xs =>
    if dotScore q x.vector ≤ dotScore q r.vector then r :: x :: xs
    else x :: insertDesc q r xs

/-- Sort records by descending similarity to the query vector. -/
def sortDesc (q : List ℚ) : List VectorRecord → List VectorRecord
  | [] => []
  | x :: xs => insertDesc q x (sortDesc q xs)

/-- Does a record carry the `type = qa_pair` payload field?  This is the
`Must` filter condition of the search request issued by `QAExists`. -/
def isQAPair (r : VectorRecord) : Bool :=
  r.payload.lookup "type" == some "qa_pair"

/-- Modelled from the spec (§4.2, the external Qdrant server): the search
issued by `VectorStore.QAExists` — candidates restricted to
`type = qa_pair`, ordered by descending similarity, limited to the top 5,
payload included. -/
def searchQAPairs (s : QdrantState) (v : List ℚ) : List VectorRecord :=
  (sortDesc v (s.records.filter isQAPair)).take 5

/-- Failures of the vector-store client operations. -/
inductive StoreErr where
  | embedFailed
  | searchFailed
  | upsertFailed
  | dimMismatch
deriving DecidableEq, Repr

/-- Environment shared by the store operations: the embedder (a pure
function of its input, per spec §4.1 and `DummyEmbedder`), whether the
Qdrant server is reachable, and the wall clock. -/
structure StoreWorld where
  embed : String → Except String (List ℚ)
  reachable : Bool
  now : Nat

/-- Translation of `VectorStore.Embed`: delegate to the configured embedder. -/
def vsEmbed (w : StoreWorld) (t : String) : Except StoreErr (List ℚ) :=
  match w.embed t with
  | .ok v => .ok v
  | .error _ => .error .embedFailed

/-- The duplicate scan loop of `VectorStore.QAExists`: walk every
returned candidate; skip those without payload question/answer fields;
report a duplicate exactly when both fields equal the inputs by string
equality. -/
def qaExistsScan (results : List VectorRecord) (question answer : String) : Bool :=
  results.any fun r =>
    match r.payload.lookup "question", r.payload.lookup "answer" with
    | some sq, some sa => sq == question && sa == answer
    | _, _ => false

/-- Translation of `VectorStore.QAExists`: embed the question, search the top 5
`qa_pair` candidates, scan them for an exact match.  An unreachable
server fails the search, which is propagated as an error. -/
def vsQAExists (w : StoreWorld) (s : QdrantState) (question answer : String) :
    Except StoreErr Bool :=
  match vsEmbed w question with
  | .error e => .error e
  | .ok v =>
    if w.reachable then
      .ok (qaExistsScan (searchQAPairs s v) question answer)
    else
      .error .searchFailed

/-- Translation of `VectorStore.StoreVector`: upsert one point.  An unreachable server
fails the RPC; the server rejects a vector whose length differs from the
collection's fixed dimensionality (modelled from the spec, §3 invariant
and §4.2) — the vector is never truncated or padded, the stored record
carries exactly the given vector. -/
def storeVector (w : StoreWorld) (s : QdrantState) (vec : List ℚ)
    (payload : List (String × String)) : Except StoreErr QdrantState :=
  if !w.reachable then
    .error .upsertFailed
  else if vec.length ≠ s.dim then
    .error .dimMismatch
  else
    .ok { s with
      nextId := s.nextId + 1
      records := s.records ++ [⟨s.nextId, vec, payload⟩] }

/-- The payload written by `VectorStore.StoreQA`. -/
def qaPayload (w : StoreWorld) (question answer : String) : List (String × String) :=
  [("type", "qa_pair"), ("question", question), ("answer", answer),
   ("stored_at", toString w.now), ("vector_type", "question")]

set_option linter.unusedVariables false in
/-- Translation of `VectorStore.StoreQA`: re-check existence (propagating any failure),
return success without writing when the pair already exists, otherwise
upsert one record keyed by the question's embedding.  The boolean of the
result records whether a record was written (in the source this is
observable through the "already exists" log line versus the upsert).
The answer embedding is accepted but, as in the source, only its size is
logged; the persisted vector is the question's embedding. -/
def vsStoreQA (w : StoreWorld) (s : QdrantState) (question answer : String)
    (questionEmbedding answerEmbedding : List ℚ) :
    Except StoreErr (QdrantState × Bool) :=
  match vsQAExists w s question answer with
  | .error e => .error e
  | .ok true => .ok (s, false)
  | .ok false =>
    match storeVector w s questionEmbedding (qaPayload w question answer) with
    | .error e => .error e
    | .ok s2 => .ok (s2, true)

/-- The store state after the upsert performed by `VectorStore.StoreQA`
for a non-duplicate pair: one new point carrying the question's embedding
and the combined Q&A payload. -/
def upsertRecord (w : StoreWorld) (s : QdrantState) (qv : List ℚ) (question answer : String) :
    QdrantState :=
  { s with
    nextId := s.nextId + 1
    records := s.records ++ [⟨s.nextId, qv, qaPayload w question answer⟩] }

/-- Translation of `DummyEmbedder.Embed`: the deterministic 1024-element test vector.
Go indexes the byte `text[i % len(text)]` when `i < len(text)`; bytes are
modelled at the character level and `float32` values over `ℚ` (no claim
depends on the numeric values, only on the length). -/
def dummyEmbed (text : String) : List ℚ :=
  (List.range 1024).map fun i =>
    if i < text.length then
      ((text.toList.map Char.toNat).getD (i % text.length) 0 : ℚ) / 256
    else
      (i : ℚ) / 1024

/-! ## Archival operation (`Model.StoreQA`, package `ui`)

`Model.StoreQA` runs, in order: nil check of the vector store; a
best-effort duplicate pre-check whose error is logged and ignored but
whose positive answer short-circuits the whole call; vault directory
creation; read-and-parse of the existing `que_ans.json`; embedding of
question and answer; `VectorStore.StoreQA`; and finally the rewrite of
`que_ans.json` with the new entry appended.  The filesystem outcomes
(directory creation, read, write) are part of the environment. -/

/-- One archived entry of `que_ans.json` (`ui.QA`). -/
structure QAEntry where
  question : String
  answer : String
  time : Nat
deriving DecidableEq, Repr

/-- The state of the `que_ans.json` archive file. -/
inductive ArchiveFile where
  | missing
  | unreadable
  | corrupt
  | good (qas : List QAEntry)
deriving DecidableEq, Repr

/-- Errors returned by `Model.StoreQA`, one per `return fmt.Errorf` site. -/
inductive StoreQAErr where
  | notInitialized
  | mkdirFailed
  | readFailed
  | parseFailed
  | embedQuestionFailed
  | embedAnswerFailed
  | remoteStoreFailed
  | writeFailed
deriving DecidableEq, Repr

/-- The read-existing step of `Model.StoreQA`: a missing file yields the
empty collection; a read or parse failure aborts the call. -/
def readArchive : ArchiveFile → Except StoreQAErr (List QAEntry)
  | .missing => .ok []
  | .unreadable => .error .readFailed
  | .corrupt => .error .parseFailed
  | .good qas => .ok qas

/-- Filesystem outcomes for one `Model.StoreQA` call. -/
structure FsWorld where
  mkdirOk : Bool
  writeOk : Bool
deriving DecidableEq, Repr

/-- The parts of the `ui.Model` state that `Model.StoreQA` reads or
writes: the vector store handle (`none` = not initialized) and the
archive file. -/
structure ModelState where
  vectorStore : Option QdrantState
  archive : ArchiveFile
deriving DecidableEq, Repr

/-- The part of `Model.StoreQA` that runs once the best-effort duplicate
pre-check has not reported a duplicate: directory creation, archive read,
the two embeddings, the remote store write, and the final archive
rewrite. -/
def storeQABody (w : StoreWorld) (fs : FsWorld) (vs : QdrantState) (archive : ArchiveFile)
    (question answer : String) : Except StoreQAErr Unit × ModelState :=
  if !fs.mkdirOk then (.error .mkdirFailed, ⟨some vs, archive⟩)
  else
    match readArchive archive with
    | .error e => (.error e, ⟨some vs, archive⟩)
    | .ok qas =>
      match vsEmbed w question with
      | .error _ => (.error .embedQuestionFailed, ⟨some vs, archive⟩)
      | .ok questionEmbedding =>
        match vsEmbed w answer with
        | .error _ => (.error .embedAnswerFailed, ⟨some vs, archive⟩)
        | .ok answerEmbedding =>
          match vsStoreQA w vs question answer questionEmbedding answerEmbedding with
          | .error _ => (.error .remoteStoreFailed, ⟨some vs, archive⟩)
          | .ok (vs2, _) =>
            let qas2 := qas ++ [⟨question, answer, w.now⟩]
            if fs.writeOk then
              (.ok (), ⟨some vs2, .good qas2⟩)
            else
              (.error .writeFailed, ⟨some vs2, archive⟩)

/-- Translation of `Model.StoreQA question answer`, step for step from the source.  The
duplicate pre-check is best-effort: its error is swallowed and the call
continues (`// Continue with storage attempt even if check fails`); only
a positive duplicate answer returns early, without touching the archive.
The archive rewrite is the last step; a failed rewrite leaves the remote
upsert in place, so the two stores can diverge. -/
def modelStoreQA (w : StoreWorld) (fs : FsWorld) (m : ModelState)
    (question answer : String) : Except StoreQAErr Unit × ModelState :=
  match m.vectorStore with
  | none => (.error .notInitialized, m)
  | some vs =>
    match vsQAExists w vs question answer with
    | .ok true => (.ok (), m)
    | _ => storeQABody w fs vs m.archive question answer

/-! ## Concrete scenario inputs

Used to evaluate the embedded operations at specific inputs. -/

/-- Filesystem in which directory creation and the archive write both
succeed. -/
def fsOk : FsWorld := ⟨true, true⟩

/-- A reachable world whose embedder deterministically returns `[1]`. -/
def dupWorld : StoreWorld := ⟨fun _ => .ok [(1 : ℚ)], true, 7⟩

/-- A stored record of the specification's scenario pair. -/
def dupRecord : VectorRecord :=
  ⟨0, [(1 : ℚ)],
   [("type", "qa_pair"), ("question", "What is AI?"),
    ("answer", "AI stands for Artificial Intelligence."),
    ("stored_at", "0"), ("vector_type", "question")]⟩

/-- A store already holding the scenario pair. -/
def dupStore : QdrantState := ⟨1024, 1, [dupRecord]⟩

/-- A model whose store already holds the scenario pair and whose local
archive is empty. -/
def dupModel : ModelState := ⟨some dupStore, .good []⟩

/-- A reachable world for the crowded-store scenario: the embedder
deterministically answers `[1]`. -/
def crowdWorld : StoreWorld := ⟨fun _ => .ok [(1 : ℚ)], true, 9⟩

/-- One of five pre-existing `qa_pair` records whose vector `[2]`
outscores the query vector `[1]` of the pair under test (for a
non-matching question/answer). -/
def crowdRecord (i : Nat) : VectorRecord :=
  ⟨i, [(2 : ℚ)],
   [("type", "qa_pair"), ("question", "other"), ("answer", "other"),
    ("stored_at", "0"), ("vector_type", "question")]⟩

/-- A 1-dimensional collection already holding five such records: enough
to fill the top-5 search limit ahead of the pair under test. -/
def crowdStore : QdrantState :=
  ⟨1, 5, [crowdRecord 0, crowdRecord 1, crowdRecord 2, crowdRecord 3, crowdRecord 4]⟩

/-- Number of records of the store carrying exactly this
question/answer payload pair. -/
def countQA (s : QdrantState) (question answer : String) : Nat :=
  (s.records.filter fun r =>
    (r.payload.lookup "question" == some question) &&
    (r.payload.lookup "answer" == some answer)).length

/-! ## Helper lemmas -/

/-- Any successful run of the close helper leaves the field nil. -/
theorem safeCloseField_ok {x y : Option ChanState} (h : safeCloseField x = .ok y) :
    y = none := by
  match x, h with
  | none, h => exact ((Except.ok.injEq _ _).mp h.symm)
  | some .opened, h => exact ((Except.ok.injEq _ _).mp h.symm)

/-- Membership in the ordered insert. -/
theorem mem_insertDesc {q : List ℚ} {r a : VectorRecord} {l : List VectorRecord} :
    a ∈ insertDesc q r l ↔ a = r ∨ a ∈ l := by
  induction l with
  | nil => simp [insertDesc]
  | cons x xs ih =>
    by_cases h : dotScore q x.vector ≤ dotScore q r.vector
    · simp [insertDesc, h]
    · simp [insertDesc, h, ih]
      tauto

/-- The ordered insert adds exactly one element. -/
theorem length_insertDesc {q : List ℚ} {r : VectorRecord} {l : List VectorRecord} :
    (insertDesc q r l).length = l.length + 1 := by
  induction l with
  | nil => rfl
  | cons x xs ih =>
    by_cases h : dotScore q x.vector ≤ dotScore q r.vector
    · simp [insertDesc, h]
    · simp [insertDesc, h, ih]

/-- Sorting by score permutes: membership is preserved. -/
theorem mem_sortDesc {q : List ℚ} {a : VectorRecord} {l : List VectorRecord} :
    a ∈ sortDesc q l ↔ a ∈ l := by
  induction l with
  | nil => simp [sortDesc]
  | cons x xs ih => simp [sortDesc, mem_insertDesc, ih]

/-- Sorting by score preserves length. -/
theorem length_sortDesc {q : List ℚ} {l : List VectorRecord} :
    (sortDesc q l).length = l.length := by
  induction l with
  | nil => rfl
  | cons x xs ih => simp [sortDesc, length_insertDesc, ih]

/-! ## Claim theorems -/

/-- C7: teardown is idempotent: a successful run of `safeCloseChannels`
leaves every channel field nil, and invoking it again on the resulting
state is a no-op — it succeeds (hence never closes an already-closed
channel and never panics) and leaves the fields unchanged (nil). -/
theorem c7_prop (c c2 : Channels) (h : safeCloseChannels c = .ok c2) :
    (c2.stopCh = none ∧ c2.errCh = none ∧ c2.streamCh = none) ∧
    safeCloseChannels c2 = .ok c2 := by
  simp only [safeCloseChannels, bind, Except.bind] at h
  cases h1 : safeCloseField c.stopCh with
  | error e => rw [h1] at h; cases h
  | ok s =>
    rw [h1] at h
    cases h2 : safeCloseField c.errCh with
    | error e => rw [h2] at h; cases h
    | ok e2 =>
      rw [h2] at h
      cases h3 : safeCloseField c.streamCh with
      | error e => rw [h3] at h; cases h
      | ok t =>
        rw [h3] at h
        simp only [pure, Except.pure, Except.ok.injEq] at h
        subst h
        rw [safeCloseField_ok h1, safeCloseField_ok h2, safeCloseField_ok h3]
        exact ⟨⟨rfl, rfl, rfl⟩, rfl⟩

/-- Witness for C7 at the fully-open channel set. -/
theorem c7_witness :
    safeCloseChannels ⟨some .opened, some .opened, some .opened⟩ = .ok ⟨none, none, none⟩ ∧
    safeCloseChannels ⟨none, none, none⟩ = .ok ⟨none, none, none⟩ := by
  refine ⟨rfl, ?_⟩
  exact (c7_prop ⟨some .opened, some .opened, some .opened⟩ ⟨none, none, none⟩ rfl).2

/-- C8: `NextTokenCmd` maps channel outcomes to events exactly as
specified: a non-nil value from the error channel yields the error
message, a nil value from the closed error channel yields the end
message, a value from the token channel yields that token, and a closed
token channel yields the end message. -/
theorem c8_prop (errCh tokCh : GoChan String) (pickErr : Bool) :
    (∀ e tl, errCh.buf = e :: tl → pickErr = true →
      nextTokenCmd errCh tokCh pickErr = some (.streamErrMsg e)) ∧
    (errCh.buf = [] → errCh.closed = true → pickErr = true →
      nextTokenCmd errCh tokCh pickErr = some .streamEndMsg) ∧
    (∀ s tl, tokCh.buf = s :: tl → pickErr = false →
      nextTokenCmd errCh tokCh pickErr = some (.tokenMsg s)) ∧
    (tokCh.buf = [] → tokCh.closed = true → pickErr = false →
      nextTokenCmd errCh tokCh pickErr = some .streamEndMsg) := by
  refine ⟨?_, ?_, ?_, ?_⟩
  · intro e tl hb hp
    simp [nextTokenCmd, GoChan.recvReady, GoChan.recvVal, hb, hp]
  · intro hb hc hp
    simp [nextTokenCmd, GoChan.recvReady, GoChan.recvVal, hb, hc, hp]
  · intro s tl hb hp
    simp [nextTokenCmd, GoChan.recvReady, GoChan.recvVal, hb, hp]
  · intro hb hc hp
    simp [nextTokenCmd, GoChan.recvReady, GoChan.recvVal, hb, hc, hp]

/-- Witness for C8 on concrete channels exercising all four outcomes. -/
theorem c8_witness :
    nextTokenCmd ⟨["boom"], false⟩ ⟨[], false⟩ true = some (.streamErrMsg "boom") ∧
    nextTokenCmd ⟨[], true⟩ ⟨[], false⟩ true = some .streamEndMsg ∧
    nextTokenCmd ⟨[], false⟩ ⟨["tok"], false⟩ false = some (.tokenMsg "tok") ∧
    nextTokenCmd ⟨[], false⟩ ⟨[], true⟩ false = some .streamEndMsg := by
  refine ⟨?_, ?_, ?_, ?_⟩
  · exact (c8_prop ⟨["boom"], false⟩ ⟨[], false⟩ true).1 "boom" [] rfl rfl
  · exact (c8_prop ⟨[], true⟩ ⟨[], false⟩ true).2.1 rfl rfl rfl
  · exact (c8_prop ⟨[], false⟩ ⟨["tok"], false⟩ false).2.2.1 "tok" [] rfl rfl
  · exact (c8_prop ⟨[], false⟩ ⟨[], true⟩ false).2.2.2 rfl rfl rfl

/-- C9: the test embedder always outputs 1024 elements; the store
operation fails fast on a vector whose length differs from the
collection's fixed dimensionality; a successful store persists exactly
the given vector (never truncated or padded); hence every vector
persisted into a 1024-dimensional collection has exactly 1024
elements. -/
theorem c9_prop :
    (∀ t, (dummyEmbed t).length = 1024) ∧
    (∀ w s vec p, vec.length ≠ s.dim →
      storeVector w s vec p = .error .upsertFailed ∨
      storeVector w s vec p = .error .dimMismatch) ∧
    (∀ w s vec p s2, storeVector w s vec p = .ok s2 →
      vec.length = s.dim ∧ s2.records = s.records ++ [⟨s.nextId, vec, p⟩]) ∧
    (∀ w s vec p s2, s.dim = askaiVectorSize →
      (∀ r ∈ s.records, r.vector.length = askaiVectorSize) →
      storeVector w s vec p = .ok s2 →
      ∀ r ∈ s2.records, r.vector.length = askaiVectorSize) := by
  have hok : ∀ w s vec p s2, storeVector w s vec p = .ok s2 →
      vec.length = s.dim ∧ s2.records = s.records ++ [⟨s.nextId, vec, p⟩] := by
    intro w s vec p s2 h
    unfold storeVector at h
    by_cases hr : w.reachable
    · simp [hr] at h
      by_cases hd : vec.length = s.dim
      · simp [hd] at h
        exact ⟨hd, by rw [← h]⟩
      · simp [hd] at h
    · simp [hr] at h
  refine ⟨?_, ?_, hok, ?_⟩
  · intro t
    simp [dummyEmbed]
  · intro w s vec p hlen
    unfold storeVector
    by_cases hr : w.reachable
    · simp [hr, hlen]
    · simp [hr]
  · intro w s vec p s2 hdim hinv h r hr
    obtain ⟨hlen, hrec⟩ := hok w s vec p s2 h
    rw [hrec] at hr
    rcases List.mem_append.mp hr with hold | hnew
    · exact hinv r hold
    · have : r = ⟨s.nextId, vec, p⟩ := by simpa using hnew
      rw [this]
      simpa [hdim] using hlen

/-- Witness for C9: the dummy embedder on a concrete input, and the
store operation rejecting a concrete short vector. -/
theorem c9_witness :
    (dummyEmbed "ab").length = 1024 ∧
    (storeVector ⟨fun t => .ok (dummyEmbed t), true, 0⟩ (emptyStore 1024) [] [] =
        .error .upsertFailed ∨
      storeVector ⟨fun t => .ok (dummyEmbed t), true, 0⟩ (emptyStore 1024) [] [] =
        .error .dimMismatch) := by
  constructor
  · exact c9_prop.1 "ab"
  · exact c9_prop.2.1 ⟨fun t => .ok (dummyEmbed t), true, 0⟩ (emptyStore 1024) [] []
      (by decide)

/-- A callback loop all of whose chunks are empty sends nothing,
aggregates nothing and finishes. -/
theorem runCallbacks_all_empty {chunks : List String} (h : ∀ c ∈ chunks, c = "") :
    ∀ i r, runCallbacks chunks i r none = ([], [], "", r, .finished) := by
  induction chunks with
  | nil => intro i r; rfl
  | cons c rest ih =>
    intro i r
    have hc : c = "" := h c (List.mem_cons_self c rest)
    have hrest : ∀ x ∈ rest, x = "" := fun x hx => h x (List.mem_cons_of_mem c hx)
    simp [runCallbacks, stopObserved, hc, ih hrest]

/-- C6: a session whose producer emits zero tokens ends in the
`Completed` state with empty aggregated text and triggers no archival:
whatever the race between the asynchronous full-response send and the
channel closure, the saver receives the empty string, so `Model.StoreQA`
is never invoked for the session. -/
theorem c6_prop (chunks : List String) (race : Bool) (h : ∀ c ∈ chunks, c = "") :
    producerRun chunks none race =
      ⟨[], if race then [""] else [], "", .finished⟩ ∧
    sessionFinalState (producerRun chunks none race) = .completed ∧
    (producerRun chunks none race).aggregated = "" ∧
    archivedAnswer (producerRun chunks none race) = none := by
  have hrun : producerRun chunks none race =
      ⟨[], if race then [""] else [], "", .finished⟩ := by
    unfold producerRun
    rw [runCallbacks_all_empty h 0 0]
    cases race <;> rfl
  refine ⟨hrun, ?_, ?_, ?_⟩
  · rw [hrun]; rfl
  · rw [hrun]
  · rw [hrun]
    cases race <;> rfl

/-- Witness for C6 at a concrete zero-token session (one callback with
empty content, race won by the asynchronous send). -/
theorem c6_witness :
    producerRun [""] none true = ⟨[], [""], "", .finished⟩ ∧
    sessionFinalState (producerRun [""] none true) = .completed ∧
    (producerRun [""] none true).aggregated = "" ∧
    archivedAnswer (producerRun [""] none true) = none := by
  have h := c6_prop [""] true (by intro c hc; simpa using hc)
  simpa using h

/-- C1 (failing input): on the specification's own scenario — chunks
`["AI ", "stands ", "for ", "Artificial Intelligence."]`, no
cancellation — the producer also sends every token on the capacity-1
full-response channel.  The saver's single receive consumes the first
token, so the text passed to archival is `"AI "`, not the concatenation
of the chunks; the third token's response-channel send blocks forever, so
the full text is never delivered at all and the producer hangs. -/
theorem c1_prop :
    producerRun ["AI ", "stands ", "for ", "Artificial Intelligence."] none true =
      ⟨["AI ", "stands "], ["AI ", "stands "], "AI stands for ", .stuck⟩ ∧
    archivedAnswer
      (producerRun ["AI ", "stands ", "for ", "Artificial Intelligence."] none true) =
      some "AI " ∧
    "AI " ≠ "AI " ++ "stands " ++ "for " ++ "Artificial Intelligence." := by
  refine ⟨by decide, by decide, by decide⟩

/-- C4 (failing input): cancelling after the first of two tokens.  The
first token was already sent on the full-response channel, the saver's
single receive hands it to `Model.StoreQA`, so the cancelled session is
archived with the partial text `"AI "` even though the claim requires no
archival at all. -/
theorem c4_prop :
    producerRun ["AI ", "stands "] (some 1) true = ⟨["AI "], ["AI "], "AI ", .canceled⟩ ∧
    sessionFinalState (producerRun ["AI ", "stands "] (some 1) true) = .canceled ∧
    archivedAnswer (producerRun ["AI ", "stands "] (some 1) true) = some "AI " := by
  refine ⟨by decide, by decide, by decide⟩

/-- A successful upsert appends exactly the given point. -/
theorem storeVector_ok {w : StoreWorld} {s : QdrantState} {vec : List ℚ}
    {p : List (String × String)} {s2 : QdrantState}
    (h : storeVector w s vec p = .ok s2) :
    s2 = { s with nextId := s.nextId + 1, records := s.records ++ [⟨s.nextId, vec, p⟩] } := by
  unfold storeVector at h
  by_cases hr : w.reachable
  · simp [hr] at h
    by_cases hd : vec.length = s.dim
    · simp [hd] at h
      exact h.symm
    · simp [hd] at h
  · simp [hr] at h

/-- A failed existence check propagates through `VectorStore.StoreQA`. -/
theorem vsStoreQA_err {w : StoreWorld} {s : QdrantState} {q a : String}
    {qv av : List ℚ} {e : StoreErr} (h : vsQAExists w s q a = .error e) :
    vsStoreQA w s q a qv av = .error e := by
  simp [vsStoreQA, h]

/-- Shape of a successful `VectorStore.StoreQA` when the existence check
did not report a duplicate: the check returned `false` and exactly the
upserted store is returned. -/
theorem vsStoreQA_ok_shape {w : StoreWorld} {s : QdrantState} {q a : String}
    {qv av : List ℚ} {s2 : QdrantState} {fl : Bool}
    (h : vsStoreQA w s q a qv av = .ok (s2, fl))
    (hnd : vsQAExists w s q a ≠ .ok true) :
    vsQAExists w s q a = .ok false ∧ fl = true ∧ s2 = upsertRecord w s qv q a := by
  unfold vsStoreQA at h
  cases hex : vsQAExists w s q a with
  | error e => rw [hex] at h; cases h
  | ok b =>
    cases b with
    | true => exact absurd hex hnd
    | false =>
      rw [hex] at h
      cases hsv : storeVector w s qv (qaPayload w q a) with
      | error e => rw [hsv] at h; cases h
      | ok s3 =>
        rw [hsv] at h
        simp only [Except.ok.injEq, Prod.mk.injEq] at h
        refine ⟨rfl, h.2.symm, ?_⟩
        rw [← h.1]
        exact storeVector_ok hsv

/-- Behaviour of `Model.StoreQA` on an uninitialized vector store. -/
theorem modelStoreQA_none (w : StoreWorld) (fs : FsWorld) (m : ModelState)
    (q a : String) (hvs : m.vectorStore = none) :
    modelStoreQA w fs m q a = (.error .notInitialized, m) := by
  simp [modelStoreQA, hvs]

/-- Behaviour of `Model.StoreQA` when the pre-check reports a duplicate: immediate
success, nothing touched. -/
theorem modelStoreQA_dup (w : StoreWorld) (fs : FsWorld) (m : ModelState)
    (q a : String) (vs : QdrantState) (hvs : m.vectorStore = some vs)
    (hex : vsQAExists w vs q a = .ok true) :
    modelStoreQA w fs m q a = (.ok (), m) := by
  simp [modelStoreQA, hvs, hex]

/-- Behaviour of `Model.StoreQA` when the pre-check does not report a duplicate (its
error, if any, is swallowed): the body runs. -/
theorem modelStoreQA_not_dup (w : StoreWorld) (fs : FsWorld) (m : ModelState)
    (q a : String) (vs : QdrantState) (hvs : m.vectorStore = some vs)
    (hnd : vsQAExists w vs q a ≠ .ok true) :
    modelStoreQA w fs m q a = storeQABody w fs vs m.archive q a := by
  simp only [modelStoreQA, hvs]

/-- On any error other than the final write failure, the body leaves the
model untouched; when the body changes the archive, every prior step
succeeded and the body performed exactly the upsert and the one-entry
append. -/
theorem storeQABody_spec (w : StoreWorld) (fs : FsWorld) (vs : QdrantState)
    (archive : ArchiveFile) (q a : String)
    (hnd : vsQAExists w vs q a ≠ .ok true) :
    (∀ e, (storeQABody w fs vs archive q a).1 = .error e → e ≠ .writeFailed →
      storeQABody w fs vs archive q a = (.error e, ⟨some vs, archive⟩)) ∧
    ((storeQABody w fs vs archive q a).2.archive ≠ archive →
      ∃ qas qv av, readArchive archive = .ok qas ∧
        vsEmbed w q = .ok qv ∧ vsEmbed w a = .ok av ∧
        vsQAExists w vs q a = .ok false ∧
        vsStoreQA w vs q a qv av = .ok (upsertRecord w vs qv q a, true) ∧
        storeQABody w fs vs archive q a =
          (.ok (), ⟨some (upsertRecord w vs qv q a), .good (qas ++ [⟨q, a, w.now⟩])⟩)) := by
  cases hmk : fs.mkdirOk with
  | false =>
    have hbody : storeQABody w fs vs archive q a = (.error .mkdirFailed, ⟨some vs, archive⟩) := by
      simp [storeQABody, hmk]
    constructor
    · intro e he hne
      rw [hbody] at he ⊢
      simp only [Except.error.injEq] at he
      rw [he]
    · intro hch
      rw [hbody] at hch
      exact absurd rfl hch
  | true =>
    cases hra : readArchive archive with
    | error e0 =>
      have hbody : storeQABody w fs vs archive q a = (.error e0, ⟨some vs, archive⟩) := by
        simp [storeQABody, hmk, hra]
      constructor
      · intro e he hne
        rw [hbody] at he ⊢
        simp only [Except.error.injEq] at he
        rw [he]
      · intro hch
        rw [hbody] at hch
        exact absurd rfl hch
    | ok qas =>
      cases heq : vsEmbed w q with
      | error e1 =>
        have hbody : storeQABody w fs vs archive q a =
            (.error .embedQuestionFailed, ⟨some vs, archive⟩) := by
          simp [storeQABody, hmk, hra, heq]
        constructor
        · intro e he hne
          rw [hbody] at he ⊢
          simp only [Except.error.injEq] at he
          rw [he]
        · intro hch
          rw [hbody] at hch
          exact absurd rfl hch
      | ok qv =>
        cases hea : vsEmbed w a with
        | error e2 =>
          have hbody : storeQABody w fs vs archive q a =
              (.error .embedAnswerFailed, ⟨some vs, archive⟩) := by
            simp [storeQABody, hmk, hra, heq, hea]
          constructor
          · intro e he hne
            rw [hbody] at he ⊢
            simp only [Except.error.injEq] at he
            rw [he]
          · intro hch
            rw [hbody] at hch
            exact absurd rfl hch
        | ok av =>
          cases hsq : vsStoreQA w vs q a qv av with
          | error e3 =>
            have hbody : storeQABody w fs vs archive q a =
                (.error .remoteStoreFailed, ⟨some vs, archive⟩) := by
              simp [storeQABody, hmk, hra, heq, hea, hsq]
            constructor
            · intro e he hne
              rw [hbody] at he ⊢
              simp only [Except.error.injEq] at he
              rw [he]
            · intro hch
              rw [hbody] at hch
              exact absurd rfl hch
          | ok pair =>
            obtain ⟨vs2, fl⟩ := pair
            obtain ⟨hexf, hfl, hvs2⟩ := vsStoreQA_ok_shape hsq hnd
            cases hwr : fs.writeOk with
            | false =>
              have hbody : storeQABody w fs vs archive q a =
                  (.error .writeFailed, ⟨some vs2, archive⟩) := by
                simp [storeQABody, hmk, hra, heq, hea, hsq, hwr]
              constructor
              · intro e he hne
                rw [hbody] at he
                simp only [Except.error.injEq] at he
                exact absurd he.symm hne
              · intro hch
                rw [hbody] at hch
                exact absurd rfl hch
            | true =>
              have hbody : storeQABody w fs vs archive q a =
                  (.ok (), ⟨some vs2, .good (qas ++ [⟨q, a, w.now⟩])⟩) := by
                simp [storeQABody, hmk, hra, heq, hea, hsq, hwr]
              constructor
              · intro e he hne
                rw [hbody] at he
                cases he
              · intro hch
                subst hvs2
                subst hfl
                exact ⟨qas, qv, av, rfl, rfl, rfl, hexf, hsq, hbody⟩

/-- With an unreachable store every path of the body fails and the model
is left untouched. -/
theorem storeQABody_unreachable (w : StoreWorld) (fs : FsWorld) (vs : QdrantState)
    (archive : ArchiveFile) (q a : String) (hr : w.reachable = false) :
    (storeQABody w fs vs archive q a).1 ≠ .ok () ∧
    (storeQABody w fs vs archive q a).2 = ⟨some vs, archive⟩ := by
  cases hmk : fs.mkdirOk with
  | false => simp [storeQABody, hmk]
  | true =>
    cases hra : readArchive archive with
    | error e0 => simp [storeQABody, hmk, hra]
    | ok qas =>
      cases heq : vsEmbed w q with
      | error e1 => simp [storeQABody, hmk, hra, heq]
      | ok qv =>
        cases hea : vsEmbed w a with
        | error e2 => simp [storeQABody, hmk, hra, heq, hea]
        | ok av =>
          have hex : vsQAExists w vs q a = .error .searchFailed := by
            unfold vsQAExists
            cases hqe : vsEmbed w q with
            | error e => rw [hqe] at heq; cases heq
            | ok v2 => simp [hr]
          simp [storeQABody, hmk, hra, heq, hea, vsStoreQA_err hex]

/-- Any error result of the body leaves the archive file unchanged (the
model's vector-store handle may already have been updated when the final
write fails). -/
theorem storeQABody_err_archive (w : StoreWorld) (fs : FsWorld) (vs : QdrantState)
    (archive : ArchiveFile) (q a : String) (e : StoreQAErr)
    (h : (storeQABody w fs vs archive q a).1 = .error e) :
    (storeQABody w fs vs archive q a).2.archive = archive := by
  cases hmk : fs.mkdirOk with
  | false => simp [storeQABody, hmk]
  | true =>
    cases hra : readArchive archive with
    | error e0 => simp [storeQABody, hmk, hra]
    | ok qas =>
      cases heq : vsEmbed w q with
      | error e1 => simp [storeQABody, hmk, hra, heq]
      | ok qv =>
        cases hea : vsEmbed w a with
        | error e2 => simp [storeQABody, hmk, hra, heq, hea]
        | ok av =>
          cases hsq : vsStoreQA w vs q a qv av with
          | error e3 => simp [storeQABody, hmk, hra, heq, hea, hsq]
          | ok pair =>
            obtain ⟨vs2, fl⟩ := pair
            cases hwr : fs.writeOk with
            | false => simp [storeQABody, hmk, hra, heq, hea, hsq, hwr]
            | true =>
              rw [show storeQABody w fs vs archive q a =
                  (.ok (), ⟨some vs2, .good (qas ++ [⟨q, a, w.now⟩])⟩) by
                simp [storeQABody, hmk, hra, heq, hea, hsq, hwr]] at h
              cases h

/-- A successful body appends exactly one entry to the parsed archive. -/
theorem storeQABody_ok_archive (w : StoreWorld) (fs : FsWorld) (vs : QdrantState)
    (archive : ArchiveFile) (q a : String) (qas : List QAEntry)
    (hra : readArchive archive = .ok qas)
    (h : (storeQABody w fs vs archive q a).1 = .ok ()) :
    (storeQABody w fs vs archive q a).2.archive = .good (qas ++ [⟨q, a, w.now⟩]) := by
  cases hmk : fs.mkdirOk with
  | false => rw [show (storeQABody w fs vs archive q a).1 = .error .mkdirFailed by
      simp [storeQABody, hmk]] at h; cases h
  | true =>
    cases heq : vsEmbed w q with
    | error e1 =>
      rw [show (storeQABody w fs vs archive q a).1 = .error .embedQuestionFailed by
        simp [storeQABody, hmk, hra, heq]] at h
      cases h
    | ok qv =>
      cases hea : vsEmbed w a with
      | error e2 =>
        rw [show (storeQABody w fs vs archive q a).1 = .error .embedAnswerFailed by
          simp [storeQABody, hmk, hra, heq, hea]] at h
        cases h
      | ok av =>
        cases hsq : vsStoreQA w vs q a qv av with
        | error e3 =>
          rw [show (storeQABody w fs vs archive q a).1 = .error .remoteStoreFailed by
            simp [storeQABody, hmk, hra, heq, hea, hsq]] at h
          cases h
        | ok pair =>
          obtain ⟨vs2, fl⟩ := pair
          cases hwr : fs.writeOk with
          | false =>
            rw [show (storeQABody w fs vs archive q a).1 = .error .writeFailed by
              simp [storeQABody, hmk, hra, heq, hea, hsq, hwr]] at h
            cases h
          | true =>
            simp [storeQABody, hmk, hra, heq, hea, hsq, hwr]

/-- The candidate scan of `QAExists` succeeds exactly when some candidate
matches both fields by string equality. -/
theorem qaExistsScan_iff (results : List VectorRecord) (q a : String) :
    qaExistsScan results q a = true ↔
      ∃ r ∈ results, r.payload.lookup "question" = some q ∧
        r.payload.lookup "answer" = some a := by
  unfold qaExistsScan
  rw [List.any_eq_true]
  constructor
  · rintro ⟨r, hr, hm⟩
    refine ⟨r, hr, ?_⟩
    cases hq : r.payload.lookup "question" with
    | none => rw [hq] at hm; cases hm
    | some sq =>
      cases ha : r.payload.lookup "answer" with
      | none => rw [hq, ha] at hm; cases hm
      | some sa =>
        rw [hq, ha] at hm
        simp only [Bool.and_eq_true, beq_iff_eq] at hm
        exact ⟨congrArg some hm.1, congrArg some hm.2⟩
  · rintro ⟨r, hr, hq, ha⟩
    refine ⟨r, hr, ?_⟩
    rw [hq, ha]
    simp

/-- Evaluation of `QAExists` on a reachable store with a successful
question embedding. -/
theorem vsQAExists_eval {w : StoreWorld} {s : QdrantState} {q a : String} {v : List ℚ}
    (hv : w.embed q = .ok v) (hr : w.reachable = true) :
    vsQAExists w s q a = .ok (qaExistsScan (searchQAPairs s v) q a) := by
  simp [vsQAExists, vsEmbed, hv, hr]

/-- A successful upsert on a reachable store with a well-sized vector. -/
theorem storeVector_success {w : StoreWorld} {s : QdrantState} {vec : List ℚ}
    {p : List (String × String)} (hr : w.reachable = true) (hd : vec.length = s.dim) :
    storeVector w s vec p =
      .ok { s with nextId := s.nextId + 1, records := s.records ++ [⟨s.nextId, vec, p⟩] } := by
  simp [storeVector, hr, hd]

/-- The freshly stored Q&A record passes the `type = qa_pair` filter. -/
theorem isQAPair_qaPayload (w : StoreWorld) (s : QdrantState) (qv : List ℚ) (q a : String) :
    isQAPair ⟨s.nextId, qv, qaPayload w q a⟩ = true := by
  simp [isQAPair, qaPayload, List.lookup]

/-- C3 (counterexample to the unconditional double-call property): on a
store already holding five `qa_pair` records whose vectors outscore the
query, the first call finds no duplicate and upserts the pair; on the
second identical call the just-stored record is pushed out of the top-5
candidates, the duplicate check misses it, and the call upserts again —
two calls leave two records for the same pair, not one. -/
theorem c3_counterexample :
    vsStoreQA crowdWorld crowdStore "q" "a" [(1 : ℚ)] [] =
      .ok (upsertRecord crowdWorld crowdStore [(1 : ℚ)] "q" "a", true) ∧
    vsStoreQA crowdWorld (upsertRecord crowdWorld crowdStore [(1 : ℚ)] "q" "a")
        "q" "a" [(1 : ℚ)] [] =
      .ok (upsertRecord crowdWorld
        (upsertRecord crowdWorld crowdStore [(1 : ℚ)] "q" "a") [(1 : ℚ)] "q" "a", true) ∧
    countQA (upsertRecord crowdWorld
      (upsertRecord crowdWorld crowdStore [(1 : ℚ)] "q" "a") [(1 : ℚ)] "q" "a") "q" "a" = 2 := by
  refine ⟨by with_unfolding_all rfl, by with_unfolding_all rfl, by with_unfolding_all rfl⟩

/-- C3 (amended): the duplicate check scans all of the (at most five)
candidates returned by the `type = qa_pair`-filtered similarity search
and reports a duplicate exactly when some candidate's payload matches
both the question and the answer by exact string equality; storing the
same pair twice on a reachable store upserts exactly one record —
the second call reports "already exists" (a successful result that
performed no write) and leaves the store unchanged — provided the
store's existing `qa_pair` records fit within the top-5 search limit
(at most four before the call); with five or more candidates that tie or
outscore the query, the just-stored pair can be pushed out of the top-5
and the second call misses the duplicate. -/
theorem c3_prop (w : StoreWorld) (s : QdrantState) (q a : String)
    (v qv av : List ℚ)
    (hv : w.embed q = .ok v) (hr : w.reachable = true)
    (hsmall : (s.records.filter isQAPair).length ≤ 4)
    (hnodup : qaExistsScan (searchQAPairs s v) q a = false)
    (hd : qv.length = s.dim) :
    (∀ results q2 a2, qaExistsScan results q2 a2 = true ↔
      ∃ r ∈ results, r.payload.lookup "question" = some q2 ∧
        r.payload.lookup "answer" = some a2) ∧
    (∀ s2 v2, (searchQAPairs s2 v2).length ≤ 5) ∧
    vsStoreQA w s q a qv av = .ok (upsertRecord w s qv q a, true) ∧
    (upsertRecord w s qv q a).records.length = s.records.length + 1 ∧
    vsStoreQA w (upsertRecord w s qv q a) q a qv av = .ok (upsertRecord w s qv q a, false) := by
  have hlimit : ∀ s2 v2, (searchQAPairs s2 v2).length ≤ 5 := by
    intro s2 v2
    simp [searchQAPairs]
  refine ⟨qaExistsScan_iff, hlimit, ?_, ?_, ?_⟩
  · unfold vsStoreQA
    rw [vsQAExists_eval hv hr, hnodup, storeVector_success hr hd]
    simp [upsertRecord]
  · simp [upsertRecord]
  · have hfilter : (upsertRecord w s qv q a).records.filter isQAPair =
        s.records.filter isQAPair ++ [⟨s.nextId, qv, qaPayload w q a⟩] := by
      simp [upsertRecord, List.filter_append, isQAPair_qaPayload w s qv q a]
    have hmem : (⟨s.nextId, qv, qaPayload w q a⟩ : VectorRecord) ∈
        searchQAPairs (upsertRecord w s qv q a) v := by
      unfold searchQAPairs
      rw [hfilter]
      have hlen : (sortDesc v (s.records.filter isQAPair ++
          [⟨s.nextId, qv, qaPayload w q a⟩])).length ≤ 5 := by
        rw [length_sortDesc]
        simp only [List.length_append, List.length_cons, List.length_nil]
        omega
      rw [List.take_of_length_le hlen]
      rw [mem_sortDesc]
      exact List.mem_append_right _ (List.mem_singleton.mpr rfl)
    have hscan : qaExistsScan (searchQAPairs (upsertRecord w s qv q a) v) q a = true := by
      rw [qaExistsScan_iff]
      refine ⟨⟨s.nextId, qv, qaPayload w q a⟩, hmem, ?_, ?_⟩
      · simp [qaPayload, List.lookup]
      · simp [qaPayload, List.lookup]
    unfold vsStoreQA
    rw [vsQAExists_eval hv hr, hscan]

/-- Witness for C3: two identical stores of the scenario pair into the
empty 1024-dimensional collection, with the dummy embedder. -/
theorem c3_witness :
    vsStoreQA ⟨fun t => .ok (dummyEmbed t), true, 0⟩ (emptyStore 1024)
        "What is AI?" "AI stands for Artificial Intelligence."
        (dummyEmbed "What is AI?") (dummyEmbed "AI stands for Artificial Intelligence.") =
      .ok (upsertRecord ⟨fun t => .ok (dummyEmbed t), true, 0⟩ (emptyStore 1024)
        (dummyEmbed "What is AI?") "What is AI?" "AI stands for Artificial Intelligence.", true) ∧
    vsStoreQA ⟨fun t => .ok (dummyEmbed t), true, 0⟩
        (upsertRecord ⟨fun t => .ok (dummyEmbed t), true, 0⟩ (emptyStore 1024)
          (dummyEmbed "What is AI?") "What is AI?" "AI stands for Artificial Intelligence.")
        "What is AI?" "AI stands for Artificial Intelligence."
        (dummyEmbed "What is AI?") (dummyEmbed "AI stands for Artificial Intelligence.") =
      .ok (upsertRecord ⟨fun t => .ok (dummyEmbed t), true, 0⟩ (emptyStore 1024)
        (dummyEmbed "What is AI?") "What is AI?" "AI stands for Artificial Intelligence.", false) := by
  have h := c3_prop ⟨fun t => .ok (dummyEmbed t), true, 0⟩ (emptyStore 1024)
    "What is AI?" "AI stands for Artificial Intelligence."
    (dummyEmbed "What is AI?") (dummyEmbed "What is AI?")
    (dummyEmbed "AI stands for Artificial Intelligence.")
    rfl rfl (by simp [emptyStore]) rfl (by simp [dummyEmbed, emptyStore])
  exact ⟨h.2.2.1, h.2.2.2.2⟩

/-- C5: if the question embedding succeeds but the dedup-check search
fails (store unreachable), `VectorStore.StoreQA` propagates the search
error and performs no write; and `Model.StoreQA` — whose own pre-check
swallows the first failure but re-checks inside the store write — also
returns an error and leaves both persistence targets untouched.  A
failed search is never treated as "not a duplicate". -/
theorem c5_prop (w : StoreWorld) (s vs : QdrantState) (fs : FsWorld) (m : ModelState)
    (q a : String) (qv av v : List ℚ)
    (hv : w.embed q = .ok v) (hr : w.reachable = false) (hvs : m.vectorStore = some vs) :
    vsStoreQA w s q a qv av = .error .searchFailed ∧
    (modelStoreQA w fs m q a).1 ≠ .ok () ∧
    (modelStoreQA w fs m q a).2 = m := by
  have hexs : ∀ s0 : QdrantState, vsQAExists w s0 q a = .error .searchFailed := by
    intro s0
    simp [vsQAExists, vsEmbed, hv, hr]
  have hnd : vsQAExists w vs q a ≠ .ok true := by
    rw [hexs vs]
    simp
  have hb := modelStoreQA_not_dup w fs m q a vs hvs hnd
  have hbody := storeQABody_unreachable w fs vs m.archive q a hr
  have hm : (⟨some vs, m.archive⟩ : ModelState) = m := by
    cases m with
    | mk mv ar =>
      simp only at hvs
      rw [hvs]
  refine ⟨vsStoreQA_err (hexs s), ?_, ?_⟩
  · rw [hb]
    exact hbody.1
  · rw [hb, hbody.2, hm]

/-- Witness for C5: unreachable store, embedder answering `[1]`. -/
theorem c5_witness :
    vsStoreQA ⟨fun _ => .ok [(1 : ℚ)], false, 0⟩ (emptyStore 1024) "q0" "a0" [] [] =
      .error .searchFailed ∧
    (modelStoreQA ⟨fun _ => .ok [(1 : ℚ)], false, 0⟩ fsOk
        ⟨some (emptyStore 1024), .missing⟩ "q0" "a0").1 ≠ .ok () ∧
    (modelStoreQA ⟨fun _ => .ok [(1 : ℚ)], false, 0⟩ fsOk
        ⟨some (emptyStore 1024), .missing⟩ "q0" "a0").2 =
      ⟨some (emptyStore 1024), .missing⟩ :=
  c5_prop ⟨fun _ => .ok [(1 : ℚ)], false, 0⟩ (emptyStore 1024) (emptyStore 1024) fsOk
    ⟨some (emptyStore 1024), .missing⟩ "q0" "a0" [] [] [(1 : ℚ)] rfl rfl rfl

/-- C2 (counterexample): on a call whose pair is already present in the
similarity store, `Model.StoreQA` returns success immediately and appends
nothing to the archive — not the exactly-one entry the claim requires,
even though the archive write would have succeeded. -/
theorem c2_counterexample :
    modelStoreQA dupWorld fsOk dupModel "What is AI?"
      "AI stands for Artificial Intelligence." = (.ok (), dupModel) ∧
    dupModel.archive = .good [] ∧
    (modelStoreQA dupWorld fsOk dupModel "What is AI?"
      "AI stands for Artificial Intelligence.").2.archive ≠
      .good [⟨"What is AI?", "AI stands for Artificial Intelligence.", dupWorld.now⟩] := by
  refine ⟨rfl, rfl, by decide⟩

/-- C2 (amended): `Model.StoreQA` appends exactly one entry to the local
archive only on the success path — no duplicate reported by the
pre-check, remote store write succeeded, archive write succeeded; when
the pre-check reports a duplicate the call succeeds without touching the
archive, and every error outcome leaves the archive unchanged. -/
theorem c2_prop (w : StoreWorld) (fs : FsWorld) (m : ModelState) (q a : String)
    (vs : QdrantState) (qas : List QAEntry)
    (hvs : m.vectorStore = some vs) (hra : readArchive m.archive = .ok qas) :
    (vsQAExists w vs q a = .ok true → modelStoreQA w fs m q a = (.ok (), m)) ∧
    ((modelStoreQA w fs m q a).1 = .ok () → vsQAExists w vs q a = .ok true ∨
      (modelStoreQA w fs m q a).2.archive = .good (qas ++ [⟨q, a, w.now⟩])) ∧
    (∀ e, (modelStoreQA w fs m q a).1 = .error e →
      (modelStoreQA w fs m q a).2.archive = m.archive) := by
  refine ⟨fun hex => modelStoreQA_dup w fs m q a vs hvs hex, ?_, ?_⟩
  · intro hok
    by_cases hdup : vsQAExists w vs q a = .ok true
    · exact Or.inl hdup
    · right
      have hb := modelStoreQA_not_dup w fs m q a vs hvs hdup
      rw [hb] at hok ⊢
      exact storeQABody_ok_archive w fs vs m.archive q a qas hra hok
  · intro e he
    by_cases hdup : vsQAExists w vs q a = .ok true
    · rw [modelStoreQA_dup w fs m q a vs hvs hdup] at he
      cases he
    · have hb := modelStoreQA_not_dup w fs m q a vs hvs hdup
      rw [hb] at he ⊢
      exact storeQABody_err_archive w fs vs m.archive q a e he

/-- Witness for C2 on the success path: empty 2-dimensional store,
missing archive file, every step succeeding. -/
theorem c2_witness :
    vsQAExists ⟨fun _ => .ok [(0 : ℚ), 1], true, 3⟩ (emptyStore 2) "q0" "a0" = .ok true ∨
    (modelStoreQA ⟨fun _ => .ok [(0 : ℚ), 1], true, 3⟩ fsOk
        ⟨some (emptyStore 2), .missing⟩ "q0" "a0").2.archive =
      .good ([] ++ [⟨"q0", "a0", 3⟩]) :=
  (c2_prop ⟨fun _ => .ok [(0 : ℚ), 1], true, 3⟩ fsOk ⟨some (emptyStore 2), .missing⟩
    "q0" "a0" (emptyStore 2) [] rfl rfl).2.1 rfl

/-- C10: whenever `Model.StoreQA` fails for any reason other than the
final archive write itself, the model — in particular the archive file —
is left exactly as it was; and whenever the archive file did change, the
call succeeded, the duplicate check inside the store write answered
"no duplicate", both embeddings succeeded, the remote upsert succeeded,
and the archive gained exactly the one new entry: the archive write is
the final step of the operation. -/
theorem c10_prop (w : StoreWorld) (fs : FsWorld) (m : ModelState) (q a : String) :
    (∀ e, (modelStoreQA w fs m q a).1 = .error e → e ≠ .writeFailed →
      (modelStoreQA w fs m q a).2 = m) ∧
    ((modelStoreQA w fs m q a).2.archive ≠ m.archive →
      ∃ vs qas qv av, m.vectorStore = some vs ∧
        vsQAExists w vs q a = .ok false ∧
        readArchive m.archive = .ok qas ∧
        vsEmbed w q = .ok qv ∧ vsEmbed w a = .ok av ∧
        vsStoreQA w vs q a qv av = .ok (upsertRecord w vs qv q a, true) ∧
        modelStoreQA w fs m q a =
          (.ok (), ⟨some (upsertRecord w vs qv q a), .good (qas ++ [⟨q, a, w.now⟩])⟩)) := by
  cases hvs : m.vectorStore with
  | none =>
    have hb := modelStoreQA_none w fs m q a hvs
    constructor
    · intro e he hne
      rw [hb]
    · intro hch
      rw [hb] at hch
      exact absurd rfl hch
  | some vs =>
    by_cases hdup : vsQAExists w vs q a = .ok true
    · have hb := modelStoreQA_dup w fs m q a vs hvs hdup
      constructor
      · intro e he hne
        rw [hb] at he
        cases he
      · intro hch
        rw [hb] at hch
        exact absurd rfl hch
    · have hb := modelStoreQA_not_dup w fs m q a vs hvs hdup
      have hspec := storeQABody_spec w fs vs m.archive q a hdup
      have hm : (⟨some vs, m.archive⟩ : ModelState) = m := by
        cases m with
        | mk mv ar =>
          simp only at hvs
          rw [hvs]
      constructor
      · intro e he hne
        rw [hb] at he ⊢
        rw [hspec.1 e he hne, hm]
      · intro hch
        rw [hb] at hch
        obtain ⟨qas, qv, av, h1, h2, h3, h4, h5, h6⟩ := hspec.2 hch
        exact ⟨vs, qas, qv, av, rfl, h4, h1, h2, h3, h5, by rw [hb, h6]⟩

/-- Witness for C10: a failing question embedding leaves the model
untouched. -/
theorem c10_witness :
    (modelStoreQA ⟨fun _ => .error "embedder down", true, 0⟩ fsOk
        ⟨some (emptyStore 1024), .missing⟩ "q0" "a0").2 =
      ⟨some (emptyStore 1024), .missing⟩ :=
  (c10_prop ⟨fun _ => .error "embedder down", true, 0⟩ fsOk
    ⟨some (emptyStore 1024), .missing⟩ "q0" "a0").1
    .embedQuestionFailed rfl (by decide)

end AskAI
